import Mathlib

/-!
Shallow embedding of the heuristic document-structure engine:
`Challenge_1a/process_pdfs.py` (title resolution, body-size estimation,
heading classification, outline merging) and `Challenge_1b/pdf_analyzer.py`
(relevance scoring, section segmentation, content refinement).

Python strings are modelled as Lean `String` (operated on via their
character lists, ASCII semantics); Python floats are modelled as `ℚ`;
Python `set`s are modelled as duplicate-free lists (`List.dedup`) or by
membership in plain lists.  The external NLTK tokenizers (`word_tokenize`,
`sent_tokenize`) are passed in as explicit function parameters `tok` / `ss`,
since they are external collaborators of the core.  The regular expressions
of the source are translated into executable character-list predicates.
-/

/-! ### Python-style character and string primitives (ASCII model) -/

def isPySpace (c : Char) : Bool :=
  c == ' ' || c == '\t' || c == '\n' || c == '\r' || c == '\x0b' || c == '\x0c'

def isUpperAZ (c : Char) : Bool := decide ('A' ≤ c) && decide (c ≤ 'Z')

def isLowerAZ (c : Char) : Bool := decide ('a' ≤ c) && decide (c ≤ 'z')

def isAlphaAZ (c : Char) : Bool := isUpperAZ c || isLowerAZ c

def isDigit09 (c : Char) : Bool := decide ('0' ≤ c) && decide (c ≤ '9')

def isWordCh (c : Char) : Bool := isAlphaAZ c || isDigit09 c || c == '_'

/-- Python `str.strip()` on a character list. -/
def stripChars (l : List Char) : List Char :=
  ((l.dropWhile isPySpace).reverse.dropWhile isPySpace).reverse

/-- Python `str.strip()`. -/
def stripStr (s : String) : String := String.mk (stripChars s.data)

def lowerChars (l : List Char) : List Char := l.map Char.toLower

/-- Python `str.lower()` (ASCII). -/
def lowerStr (s : String) : String := String.mk (lowerChars s.data)

/-- Helper for Python `str.split()` with no argument: split on whitespace
runs, dropping empty pieces.  `acc` is the current word, reversed. -/
def splitWsAux : List Char → List Char → List (List Char)
  | [], acc => if acc.isEmpty then [] else [acc.reverse]
  | c :: rest, acc =>
    if isPySpace c then
      if acc.isEmpty then splitWsAux rest [] else acc.reverse :: splitWsAux rest []
    else splitWsAux rest (c :: acc)

def splitWsChars (l : List Char) : List (List Char) := splitWsAux l []

/-- Python `str.split()` (no separator). -/
def pySplit (s : String) : List String := (splitWsChars s.data).map String.mk

/-- Does the second list start with the first? -/
def lstarts : List Char → List Char → Bool
  | [], _ => true
  | _ :: _, [] => false
  | p :: ps, c :: cs => p == c && lstarts ps cs

/-- Python `pat in l` for strings: contiguous-substring test. -/
def lcontains (pat : List Char) : List Char → Bool
  | [] => lstarts pat []
  | c :: rest => lstarts pat (c :: rest) || lcontains pat rest

/-- Python `str.endswith`. -/
def lends (suf l : List Char) : Bool := lstarts suf.reverse l.reverse

/-- Python `a in b` for strings. -/
def substr (a b : String) : Bool := lcontains a.data b.data

/-- Python `str.isupper()`: at least one cased character and every cased
character uppercase (ASCII model: cased = alphabetic). -/
def pyIsUpperL (l : List Char) : Bool :=
  l.any isAlphaAZ && l.all (fun c => !isAlphaAZ c || isUpperAZ c)

def startsWithAny (l : List Char) (ws : List String) : Bool :=
  ws.any (fun w => lstarts w.data l)

/-! ### Challenge_1a: `is_likely_title` -/

/-- Regex `^(Page|Figure|Table|\d+|Date:|From:|To:)` with IGNORECASE:
`t` is the stripped text. -/
def titleReject (t : List Char) : Bool :=
  startsWithAny (lowerChars t) ["page", "figure", "table", "date:", "from:", "to:"] ||
  (match t with
   | c :: _ => isDigit09 c
   | [] => false)

/-- `is_likely_title` from `process_pdfs.py`. -/
def is_likely_title (text : String) : Bool :=
  let t := stripChars text.data
  if titleReject t then false
  else decide (10 < t.length) && decide (t.length < 150)

/-! ### Challenge_1a: `is_likely_heading` skip patterns (all IGNORECASE) -/

def skipP1 (lt : List Char) : Bool :=
  startsWithAny lt
    ["figure", "table", "equation", "page", "date", "from", "to", "email",
     "phone", "www.", "http"]

def skipP2 (lt : List Char) : Bool :=
  startsWithAny lt
    ["march", "april", "may", "june", "july", "august", "september",
     "october", "november", "december"]

def skipP3 (lt : List Char) : Bool :=
  startsWithAny lt
    ["monday", "tuesday", "wednesday", "thursday", "friday", "saturday", "sunday"]

/-- `^\d+$` -/
def skipP4 (t : List Char) : Bool := !t.isEmpty && t.all isDigit09

/-- `^[.,:;!?()]+$` -/
def skipP5 (t : List Char) : Bool :=
  !t.isEmpty && t.all (fun c => ['.', ',', ':', ';', '!', '?', '(', ')'].contains c)

def funcWords : List String :=
  ["the", "this", "that", "and", "or", "but", "if", "when", "where", "how",
   "what", "why", "for", "with", "as", "at", "in", "on", "by"]

/-- `^(the|this|...)\s` -/
def skipP6 (lt : List Char) : Bool :=
  funcWords.any (fun w =>
    lstarts w.data lt &&
    (match lt.drop w.length with
     | c :: _ => isPySpace c
     | [] => false))

/-- `^\$\d+` -/
def skipP7 : List Char → Bool
  | '$' :: c :: _ => isDigit09 c
  | _ => false

/-- `^\d{4}$` -/
def skipP8 (t : List Char) : Bool := t.length == 4 && t.all isDigit09

/-- `^p\.m\.|^a\.m\.` -/
def skipP9 (lt : List Char) : Bool :=
  lstarts "p.m.".data lt || lstarts "a.m.".data lt

/-- `^\d+:\d+` -/
def skipP10 (t : List Char) : Bool :=
  let d := t.takeWhile isDigit09
  !d.isEmpty &&
  (match t.dropWhile isDigit09 with
   | ':' :: c :: _ => isDigit09 c
   | _ => false)

/-- `^\d+\.\d+%` -/
def skipP11 (t : List Char) : Bool :=
  let d1 := t.takeWhile isDigit09
  !d1.isEmpty &&
  (match t.dropWhile isDigit09 with
   | '.' :: r2 =>
     let d2 := r2.takeWhile isDigit09
     !d2.isEmpty &&
     (match r2.dropWhile isDigit09 with
      | '%' :: _ => true
      | _ => false)
   | _ => false)

/-- `^(RFP:|Request|Proposal|Business|Plan)$` with IGNORECASE. -/
def skipP12 (lt : List Char) : Bool :=
  ["rfp:", "request", "proposal", "business", "plan"].any (fun w => lt == w.data)

/-- `^\d+\s*-\s*\d+$` -/
def skipP13 (t : List Char) : Bool :=
  let d1 := t.takeWhile isDigit09
  !d1.isEmpty &&
  (match (t.dropWhile isDigit09).dropWhile isPySpace with
   | '-' :: r3 =>
     let r4 := r3.dropWhile isPySpace
     let d2 := r4.takeWhile isDigit09
     !d2.isEmpty && (r4.dropWhile isDigit09).isEmpty
   | _ => false)

/-- `^[A-Z]\s*$` with IGNORECASE, on stripped text. -/
def skipP14 (t : List Char) : Bool := t.length == 1 && t.all isAlphaAZ

/-- `re.search(r'(.)\1{3,}', text)`: a run of 4+ identical characters. -/
def hasRepeatRun : List Char → Bool
  | a :: b :: c :: d :: rest =>
    (a == b && b == c && c == d) || hasRepeatRun (b :: c :: d :: rest)
  | _ => false

/-- `len([c for c in text if c.isalpha()]) < len(text) * 0.7` -/
def alphaDeficient (t : List Char) : Bool :=
  decide (10 * (t.filter isAlphaAZ).length < 7 * t.length)

/-- `len(words) == 1 and len(text) < 6 and not text.isupper()` -/
def singleShortLower (t : List Char) : Bool :=
  (splitWsChars t).length == 1 && decide (t.length < 6) && !pyIsUpperL t

/-- `len(text) < 10 and text.endswith(('f','r','n','st','nd','rd','th','er','ed','ing'))` -/
def fragSuffix (t : List Char) : Bool :=
  decide (t.length < 10) &&
  (["f", "r", "n", "st", "nd", "rd", "th", "er", "ed", "ing"].any
    (fun w => lends w.data t))

/-- `re.match(r'^[a-z]', text) and len(text) < 15` (case sensitive). -/
def lowerStartShort (t : List Char) : Bool :=
  (match t with
   | c :: _ => isLowerAZ c
   | [] => false) && decide (t.length < 15)

/-- `'  ' in text or text.count(' ') > len(words)` -/
def irregularSpacing (t : List Char) : Bool :=
  lcontains [' ', ' '] t ||
  decide ((splitWsChars t).length < (t.filter (fun c => c == ' ')).length)

/-- All pre-scoring rejection filters of `is_likely_heading`, in source
order (any match rejects, so a Bool disjunction is faithful), including the
initial `len(text) < 4` check. -/
def textFiltersReject (text : String) : Bool :=
  let t := stripChars text.data
  let lt := lowerChars t
  decide (t.length < 4) ||
  skipP1 lt || skipP2 lt || skipP3 lt || skipP4 t || skipP5 t || skipP6 lt ||
  skipP7 t || skipP8 t || skipP9 lt || skipP10 t || skipP11 t || skipP12 lt ||
  skipP13 t || skipP14 t ||
  hasRepeatRun t || alphaDeficient t || singleShortLower t || fragSuffix t ||
  lowerStartShort t || irregularSpacing t

/-! ### Challenge_1a: `is_likely_heading` scoring -/

/-- `^\d+\.?\d*\.?\s*[A-Z][a-zA-Z\s]+$` (case sensitive). -/
def numberedPat (t : List Char) : Bool :=
  let d1 := t.takeWhile isDigit09
  if d1.isEmpty then false
  else
    let r1 := t.dropWhile isDigit09
    let r2 := match r1 with
      | '.' :: rest => rest
      | _ => r1
    let r3 := r2.dropWhile isDigit09
    let r4 := match r3 with
      | '.' :: rest => rest
      | _ => r3
    match r4.dropWhile isPySpace with
    | c :: rest =>
      isUpperAZ c && !rest.isEmpty &&
      rest.all (fun x => isAlphaAZ x || isPySpace x)
    | [] => false

/-- `text.isupper() and 4 <= len(text) <= 40 and ' ' in text` -/
def allCapsPat (t : List Char) : Bool :=
  pyIsUpperL t && decide (4 ≤ t.length) && decide (t.length ≤ 40) &&
  lcontains [' '] t

/-- `^[A-Z][a-zA-Z\s]+:$` (case sensitive). -/
def colonPat (t : List Char) : Bool :=
  decide (3 ≤ t.length) &&
  (match t with
   | c :: _ => isUpperAZ c
   | [] => false) &&
  (match t.getLast? with
   | some c => c == ':'
   | none => false) &&
  ((t.drop 1).dropLast.all (fun x => isAlphaAZ x || isPySpace x))

/-- `text.endswith(':') and re.match(^[A-Z][a-zA-Z\s]+:$) and 6 <= len <= 50` -/
def colonHeadingBonus (t : List Char) : Bool :=
  lends [':'] t && colonPat t && decide (6 ≤ t.length) && decide (t.length ≤ 50)

/-- `^Appendix\s+[A-Z][\w\s:]*$` with IGNORECASE. -/
def appendixPat (t : List Char) : Bool :=
  let lt := lowerChars t
  lstarts "appendix".data lt &&
  (let r := lt.drop 8
   let ws1 := r.takeWhile isPySpace
   !ws1.isEmpty &&
   (match r.dropWhile isPySpace with
    | c :: rest =>
      isAlphaAZ c && rest.all (fun x => isWordCh x || isPySpace x || x == ':')
    | [] => false))

def headingWordsLex : List String :=
  ["summary", "introduction", "background", "conclusion", "references",
   "methodology", "results", "discussion", "abstract", "overview",
   "timeline", "approach", "requirements", "evaluation", "appendix",
   "milestones", "preamble", "membership", "funding", "phase"]

/-- `any(word in text.lower() for word in heading_words) and len(text) <= 50` -/
def headingWordPat (t : List Char) : Bool :=
  decide (t.length ≤ 50) &&
  headingWordsLex.any (fun w => lcontains w.data (lowerChars t))

/-- `len(words) >= 2 and all(word[0].isupper() for word in words if len(word) > 2)` -/
def titleCasePat (t : List Char) : Bool :=
  let ws := splitWsChars t
  decide (2 ≤ ws.length) &&
  ws.all (fun w =>
    decide (w.length ≤ 2) ||
    (match w with
     | c :: _ => isUpperAZ c
     | [] => true))

/-- `len(words) >= 2 and all(len(word) >= 3 or word.isupper() for word in words)` -/
def completeWordsPat (t : List Char) : Bool :=
  let ws := splitWsChars t
  decide (2 ≤ ws.length) && ws.all (fun w => decide (3 ≤ w.length) || pyIsUpperL w)

/-- `if 8 <= len(text) <= 60: +2 elif len(text) > 80: -3` -/
def lengthScore (t : List Char) : Int :=
  if 8 ≤ t.length ∧ t.length ≤ 60 then 2 else if 80 < t.length then -3 else 0

/-- All size-ratio-independent score contributions of `is_likely_heading`
(bold bonus and lexical/structural patterns). -/
def textScore (text : String) (is_bold : Bool) : Int :=
  let t := stripChars text.data
  (if is_bold then 3 else 0) +
  (if numberedPat t then 5 else 0) +
  (if allCapsPat t then 4 else 0) +
  (if colonHeadingBonus t then 4 else 0) +
  (if appendixPat t then 5 else 0) +
  (if headingWordPat t then 2 else 0) +
  (if titleCasePat t then 2 else 0) +
  lengthScore t +
  (if completeWordsPat t then 1 else 0)

/-- Size-ratio thresholds `{>2.0:+5, >1.6:+4, >1.3:+3, >1.15:+2}`. -/
def sizeBonus (rr : ℚ) : Int :=
  if 2 < rr then 5 else if 8 / 5 < rr then 4 else if 13 / 10 < rr then 3 else 2

/-- The `heading_score` of `is_likely_heading`: `none` when a pre-filter
rejects or `size_ratio <= 1.15` (the source `return False` paths before a
score exists), otherwise the total additive score. -/
def is_likely_heading_score (text : String) (rr : ℚ) (is_bold : Bool) : Option Int :=
  if textFiltersReject text then none
  else if rr ≤ 23 / 20 then none
  else some (sizeBonus rr + textScore text is_bold)

/-- `is_likely_heading` from `process_pdfs.py`: accepted iff the score
exists and is `>= 6`. -/
def is_likely_heading (text : String) (rr : ℚ) (is_bold : Bool) : Bool :=
  match is_likely_heading_score text rr is_bold with
  | none => false
  | some s => decide (6 ≤ s)

/-! ### Challenge_1a: heading levels -/

inductive HLevel where
  | H1 : HLevel
  | H2 : HLevel
  | H3 : HLevel
deriving DecidableEq

/-- Rank of a heading level under the order H1 > H2 > H3. -/
def rankLevel : HLevel → Nat
  | .H1 => 3
  | .H2 => 2
  | .H3 => 1

/-- `determine_heading_level` from `process_pdfs.py` (the third argument
`absolute_size` is unused by the source too). -/
def determine_heading_level (rr : ℚ) (is_bold : Bool) (_absolute_size : ℚ) : HLevel :=
  if 2 < rr then .H1
  else if 8 / 5 < rr then (if is_bold then .H1 else .H2)
  else if 13 / 10 < rr then .H2
  else if 11 / 10 < rr then (if is_bold then .H2 else .H3)
  else .H3

/-! ### Challenge_1a: span pipeline -/

structure RawSpan where
  text : String
  size : ℚ
  flags : Nat
  page : Nat
deriving DecidableEq

structure PHeading where
  level : HLevel
  text : String
  page : Nat
  size : ℚ
deriving DecidableEq

structure OutlineEntry where
  level : HLevel
  text : String
  page : Nat
deriving DecidableEq

structure DocResult where
  title : String
  outline : List OutlineEntry
deriving DecidableEq

/-- The span-collection loop: strip each span's text and keep it only when
the stripped text is non-empty with length > 1. -/
def collectSpans (spans : List RawSpan) : List RawSpan :=
  spans.filterMap (fun s =>
    let t := stripStr s.text
    if 1 < t.length then some ⟨t, s.size, s.flags, s.page⟩ else none)

/-- `Counter(sizes).most_common(1)[0][0]`: the first value (in document
order) whose number of occurrences is maximal.  `Counter` iterates in
first-insertion order and `most_common` sorts stably by count, so the tie
break is first occurrence. -/
def firstMode (l : List ℚ) : Option ℚ :=
  l.find? (fun x => l.all (fun y => decide (l.count y ≤ l.count x)))

/-- Python `max` on a list of rationals (0 for the empty list, never used). -/
def maxQ : List ℚ → ℚ
  | [] => 0
  | x :: xs => xs.foldl max x

def firstPageSpans (spans : List RawSpan) : List RawSpan :=
  (collectSpans spans).filter (fun s => s.page == 1)

def maxSizeOf (l : List RawSpan) : ℚ := maxQ (l.map (fun s => s.size))

/-- The title-resolution logic of `extract_title_and_outline`: stripped
metadata title if non-empty; else the first page-1 span at the maximal
page-1 size passing `is_likely_title`; else `"Untitled Document"`. -/
def resolveTitle (metaTitle : String) (spans : List RawSpan) : String :=
  let title0 := stripStr metaTitle
  if title0 ≠ "" then title0
  else
    let fps := firstPageSpans spans
    if fps.isEmpty then "Untitled Document"
    else
      match fps.find? (fun s =>
          decide (s.size = maxSizeOf fps) && is_likely_title s.text) with
      | some s => if s.text = "" then "Untitled Document" else s.text
      | none => "Untitled Document"

/-- The heading-candidate loop: length gate `[2,200]`, bold flag bit 16,
size ratio against the document body size. -/
def headingCandidates (spans : List RawSpan) (body : ℚ) : List PHeading :=
  spans.filterMap (fun s =>
    if s.text.length < 2 ∨ 200 < s.text.length then none
    else
      let bold := decide ((s.flags &&& 16) ≠ 0)
      let rr := s.size / body
      if is_likely_heading s.text rr bold then
        some ⟨determine_heading_level rr bold s.size, s.text, s.page, s.size⟩
      else none)

def keyTP (e : OutlineEntry) : String × Nat := (e.text, e.page)

/-- The inner scan of the merge loop: first same-page entry related to the
candidate text by substring containment in either direction. -/
def findOverlap (outline : List OutlineEntry) (page : Nat) (text : String) :
    Option OutlineEntry :=
  outline.find? (fun e => e.page == page && (substr text e.text || substr e.text text))

/-- One iteration of the dedup/merge loop over sorted heading candidates.
State: (clean_outline, seen keys). -/
def cleanStep (acc : List OutlineEntry × List (String × Nat)) (h : PHeading) :
    List OutlineEntry × List (String × Nat) :=
  if (h.text, h.page) ∈ acc.2 then acc
  else
    match findOverlap acc.1 h.page h.text with
    | none => (acc.1 ++ [⟨h.level, h.text, h.page⟩], (h.text, h.page) :: acc.2)
    | some e =>
      if e.text.length < h.text.length then
        (acc.1.erase e ++ [⟨h.level, h.text, h.page⟩], (h.text, h.page) :: acc.2)
      else acc

/-- Sort key `(page, -size)` of `potential_headings.sort`. -/
def headingSortLe (a b : PHeading) : Prop :=
  a.page < b.page ∨ (a.page = b.page ∧ b.size ≤ a.size)

instance : DecidableRel headingSortLe := fun a b => by
  unfold headingSortLe; infer_instance

/-- Final sort key (page only) of `sorted(clean_outline, ...)`. -/
def pageLe (a b : OutlineEntry) : Prop := a.page ≤ b.page

instance : DecidableRel pageLe := fun a b => by
  unfold pageLe; infer_instance

/-- `extract_title_and_outline` from `process_pdfs.py`, as a function of
the metadata title and the decoded raw spans.  Python's stable `list.sort`
is modelled by the stable `List.insertionSort`. -/
def extract_title_and_outline (metaTitle : String) (spans : List RawSpan) : DocResult :=
  if (collectSpans spans).isEmpty then ⟨resolveTitle metaTitle spans, []⟩
  else
    ⟨resolveTitle metaTitle spans,
      List.insertionSort pageLe
        ((List.insertionSort headingSortLe
            (headingCandidates (collectSpans spans)
              ((firstMode ((collectSpans spans).map (fun s => s.size))).getD 0))).foldl
          cleanStep ([], [])).1⟩

/-! ### Challenge_1b: relevance scoring -/

def personaKeywords (p : String) : List String :=
  if p = "Travel Planner" then
    ["travel", "trip", "destination", "hotel", "restaurant", "activity",
     "tour", "beach", "city", "culture", "food", "nightlife", "transportation"]
  else if p = "HR professional" then
    ["form", "signature", "document", "employee", "onboarding", "compliance",
     "fillable", "workflow", "digital", "electronic", "process"]
  else if p = "Food Contractor" then
    ["recipe", "vegetarian", "gluten-free", "buffet", "corporate", "catering",
     "ingredient", "cooking", "meal", "dish", "menu", "dietary"]
  else []

/-- `set(word.lower() for word in word_tokenize(task) if len(word) > 3)`. -/
def taskWords (tok : String → List String) (task : String) : List String :=
  (((tok task).filter (fun w => 3 < w.length)).map lowerStr).dedup

/-- `set(word.lower() for word in word_tokenize(text.lower()) if len(word) > 3)`. -/
def textWords (tok : String → List String) (text : String) : List String :=
  (((tok (lowerStr text)).filter (fun w => 3 < w.length)).map lowerStr).dedup

/-- `calculate_relevance_score` from `pdf_analyzer.py`, parameterized by the
external word tokenizer. -/
def calculate_relevance_score (tok : String → List String)
    (text persona task : String) : ℚ :=
  let tw := textWords tok text
  let pm := (tw.filter (fun w => decide (w ∈ personaKeywords persona))).length
  let tm := (tw.filter (fun w => decide (w ∈ taskWords tok task))).length
  if tw.length = 0 then 0
  else min (((pm : ℚ) * 2 + (tm : ℚ) * 3) / (tw.length : ℚ) * 100) 100

/-! ### Challenge_1b: section segmentation -/

/-- `^[A-Z][^.]*[A-Z]` (case sensitive). -/
def patInternalCaps (t : List Char) : Bool :=
  match t with
  | c :: rest => isUpperAZ c && (rest.takeWhile (fun x => x != '.')).any isUpperAZ
  | [] => false

/-- `^\d+\.` -/
def patNumDotStart (t : List Char) : Bool :=
  !(t.takeWhile isDigit09).isEmpty &&
  (match t.dropWhile isDigit09 with
   | '.' :: _ => true
   | _ => false)

def isSectionHeaderLine (t : List Char) : Bool :=
  pyIsUpperL t || patInternalCaps t ||
  (decide ((splitWsChars t).length < 8) && lends [':'] t) || patNumDotStart t

/-- Python `line.rstrip(':')`. -/
def rstripColon (l : List Char) : List Char :=
  (l.reverse.dropWhile (fun c => c == ':')).reverse

/-- One enumerated line of `identify_sections`.  State:
(closed sections, current section title, current start line). -/
def sectionFold (st : List (String × Nat) × String × Nat) (il : Nat × String) :
    List (String × Nat) × String × Nat :=
  let l := stripStr il.2
  if l = "" then st
  else if isSectionHeaderLine l.data then
    ((if st.2.1 = "" then st.1 else st.1 ++ [(st.2.1, st.2.2)]),
     String.mk (rstripColon l.data), il.1)
  else st

/-- `identify_sections` from `pdf_analyzer.py`. -/
def identify_sections (text : String) : List (String × Nat) :=
  let res := (text.splitOn "\n").enum.foldl sectionFold ([], "", 0)
  if res.2.1 = "" then res.1 else res.1 ++ [(res.2.1, res.2.2)]

/-! ### Challenge_1b: relevant-content extraction -/

structure ScoredSection where
  title : String
  page : Nat
  score : ℚ
  text : String
deriving DecidableEq

structure RefinedSubsection where
  page : Nat
  text : String
  relevance_score : ℚ
deriving DecidableEq

/-- `section_title.strip().lower()`, the dedup key of
`extract_relevant_content` (the source hashes this string; hashing for set
membership is modelled as the string itself). -/
def normTitle (s : String) : String := lowerStr (stripStr s)

/-- Inner loop body of `extract_relevant_content` over one page's section
titles.  Note the source scores the whole page text, not the section. -/
def sectionStep (tok : String → List String) (persona task : String)
    (pnum : Nat) (ptext : String)
    (acc : List ScoredSection × List String) (st : String × Nat) :
    List ScoredSection × List String :=
  if 0 < calculate_relevance_score tok ptext persona task then
    if normTitle st.1 ∈ acc.2 then acc
    else (acc.1 ++ [⟨st.1, pnum, calculate_relevance_score tok ptext persona task,
            ptext⟩],
      normTitle st.1 :: acc.2)
  else acc

/-- Outer loop body of `extract_relevant_content` over pages. -/
def pageStep (tok : String → List String) (persona task : String)
    (acc : List ScoredSection × List String) (pt : Nat × String) :
    List ScoredSection × List String :=
  (if (identify_sections pt.2).isEmpty then [("Main Content", 0)]
   else identify_sections pt.2).foldl (sectionStep tok persona task pt.1 pt.2) acc

/-- The `all_sections` pool built by `extract_relevant_content` before
ranking/truncation. -/
def extractAllSections (tok : String → List String) (pages : List (Nat × String))
    (persona task : String) : List ScoredSection :=
  (pages.foldl (pageStep tok persona task) ([], [])).1

/-! ### Challenge_1b: content refinement -/

/-- Characters kept by `re.sub(r'[^\w\s\.\,\!\?\:\;\-\(\)\'\"]+', ' ', ...)`. -/
def isAllowedChar (c : Char) : Bool :=
  isWordCh c || isPySpace c ||
  ['.', ',', '!', '?', ':', ';', '-', '(', ')', '\'', '"'].contains c

/-- Replace every run of disallowed characters by a single space
(`prevBad` records whether the previous character was disallowed). -/
def replaceBadAux : List Char → Bool → List Char
  | [], _ => []
  | c :: rest, prevBad =>
    if isAllowedChar c then c :: replaceBadAux rest false
    else if prevBad then replaceBadAux rest true
    else ' ' :: replaceBadAux rest true

def replaceBadRuns (l : List Char) : List Char := replaceBadAux l false

/-- Collapse a maximal run of spaces to one space (input has every
whitespace char already mapped to `' '`). -/
def squeezeSpaces : List Char → List Char
  | [] => []
  | [c] => [c]
  | a :: b :: rest =>
    if a == ' ' && b == ' ' then squeezeSpaces (b :: rest)
    else a :: squeezeSpaces (b :: rest)

/-- `re.sub(r'\s+', ' ', text)`: every whitespace run becomes one space. -/
def collapseWs (l : List Char) : List Char :=
  squeezeSpaces (l.map (fun c => if isPySpace c then ' ' else c))

/-- The cleanup at the top of `refine_text`: collapse whitespace, strip,
then replace runs of special characters by a space. -/
def cleanText (s : String) : String :=
  String.mk (replaceBadRuns (stripChars (collapseWs s.data)))

/-- `set(sentence.lower().split())`. -/
def wordsOf (s : String) : List String := (pySplit (lowerStr s)).dedup

/-- Sentence filtering/scoring stage of `refine_text`: sentences with more
than 5 words and relevance above 0.05, with their scores. -/
def refineScored (tok ss : String → List String) (text persona task : String) :
    List (String × ℚ) :=
  (ss (cleanText text)).filterMap (fun s0 =>
    let s := stripStr s0
    if 5 < (pySplit s).length then
      let rel := calculate_relevance_score tok s persona task
      if 1 / 20 < rel then some (s, rel) else none
    else none)

/-- Sort key of `scored_sentences.sort(key=..., reverse=True)`. -/
def relDescLe (a b : String × ℚ) : Prop := b.2 ≤ a.2

instance : DecidableRel relDescLe := fun a b => by
  unfold relDescLe; infer_instance

/-- Greedy diversity selection: accept a sentence only when at least 30% of
its word set is new relative to all previously accepted sentences; stop at
3 accepted sentences.  `len(new) >= len(words)*0.3` is `3*|w| <= 10*|new|`. -/
def selectStep (acc : List String × List String) (p : String × ℚ) :
    List String × List String :=
  if 3 ≤ acc.1.length then acc
  else if 3 * (wordsOf p.1).length ≤
      10 * ((wordsOf p.1).filter (fun w => decide (w ∉ acc.2))).length then
    (acc.1 ++ [p.1], acc.2 ++ wordsOf p.1)
  else acc

/-- The `selected_sentences` list computed inside `refine_text`. -/
def refineSelected (tok ss : String → List String) (text persona task : String) :
    List String :=
  ((List.insertionSort relDescLe (refineScored tok ss text persona task)).foldl
    selectStep ([], [])).1

/-- `refine_text` from `pdf_analyzer.py`, parameterized by the external
word tokenizer `tok` and sentence splitter `ss`. -/
def refine_text (tok ss : String → List String) (text persona task : String) : String :=
  if (cleanText text).length < 20 then ""
  else if 20 < (String.intercalate " " (refineSelected tok ss text persona task)).length
  then String.intercalate " " (refineSelected tok ss text persona task)
  else ""

/-! ### Challenge_1b: end of `extract_relevant_content` -/

def scoreDescLe (a b : ScoredSection) : Prop := b.score ≤ a.score

instance : DecidableRel scoreDescLe := fun a b => by
  unfold scoreDescLe; infer_instance

/-- `all_sections.sort(key=score, reverse=True)[:max_sections]` with the
default `max_sections = 5`. -/
def topSections (tok : String → List String) (pages : List (Nat × String))
    (persona task : String) : List ScoredSection :=
  (List.insertionSort scoreDescLe (extractAllSections tok pages persona task)).take 5

/-- Subsection accumulation over the top sections. -/
def subStep (tok ss : String → List String) (persona task : String)
    (acc : List RefinedSubsection × List String) (sec : ScoredSection) :
    List RefinedSubsection × List String :=
  let refined := refine_text tok ss sec.text persona task
  if refined ≠ "" ∧ 10 < (stripStr refined).length then
    let h := normTitle refined
    if h ∈ acc.2 then acc
    else (acc.1 ++ [⟨sec.page, refined, sec.score⟩], h :: acc.2)
  else acc

/-- `extract_relevant_content` from `pdf_analyzer.py`. -/
def extract_relevant_content (tok ss : String → List String)
    (pages : List (Nat × String)) (persona task : String) :
    List ScoredSection × List RefinedSubsection :=
  (topSections tok pages persona task,
   ((topSections tok pages persona task).foldl (subStep tok ss persona task)
     ([], [])).1)

/-! ### Claim-statement helper predicates -/

/-- `a` is a strict substring of `b`. -/
def strictSub (a b : String) : Bool := substr a b && decide (a.length < b.length)

/-- The pair of outline entries violates the claimed invariant: identical
`(text, page)`, or same page with one text a strict substring of the other. -/
def c1Bad (e f : OutlineEntry) : Bool :=
  (e.text == f.text && e.page == f.page) ||
  (e.page == f.page && (strictSub e.text f.text || strictSub f.text e.text))

/-- Decidable form of the claimed outline invariant. -/
def c1Pred : List OutlineEntry → Bool
  | [] => true
  | e :: rest => rest.all (fun f => !c1Bad e f) && c1Pred rest

def outlineKeys (l : List OutlineEntry) : List (String × Nat) := l.map keyTP

/-- Word overlap of the later sentence `b` with the earlier sentence `a`,
measured against `b`'s word set: at most 70%. -/
def overlapLe (a b : String) : Prop :=
  10 * ((wordsOf b).filter (fun w => decide (w ∈ wordsOf a))).length ≤
    7 * (wordsOf b).length

/-- Strict (<70%) Bool form of the overlap condition claimed by the spec. -/
def overlapLtB (a b : String) : Bool :=
  decide (10 * ((wordsOf b).filter (fun w => decide (w ∈ wordsOf a))).length <
    7 * (wordsOf b).length)

/-- Decidable form of the claimed refinement property: every later accepted
sentence shares strictly less than 70% word overlap with every earlier one. -/
def c6Pred : List String → Bool
  | [] => true
  | s :: rest => rest.all (overlapLtB s) && c6Pred rest

/-! ### Generic list lemmas -/

theorem length_filter_partition {α : Type} (l : List α) (p : α → Bool) :
    (l.filter p).length + (l.filter (fun a => !p a)).length = l.length := by
  induction l with
  | nil => rfl
  | cons a t ih =>
    cases h : p a <;> simp [List.filter_cons, h] <;> omega

theorem length_filter_mono {α : Type} (l : List α) (p q : α → Bool)
    (h : ∀ a, p a = true → q a = true) :
    (l.filter p).length ≤ (l.filter q).length := by
  induction l with
  | nil => exact le_refl 0
  | cons a t ih =>
    cases hp : p a
    · cases hq : q a <;> simp [List.filter_cons, hp, hq] <;> omega
    · have hq := h a hp
      simp [List.filter_cons, hp, hq]
      omega

theorem find?_first_decomp {α : Type} (p : α → Bool) :
    ∀ (l : List α), (∃ x ∈ l, p x = true) →
      ∃ m l1 l2, l.find? p = some m ∧ l = l1 ++ m :: l2 ∧ p m = true ∧
        ∀ y ∈ l1, p y = false := by
  intro l
  induction l with
  | nil =>
    rintro ⟨x, hx, -⟩
    exact absurd hx (List.not_mem_nil x)
  | cons a t ih =>
    rintro ⟨x, hx, hpx⟩
    by_cases hpa : p a = true
    · refine ⟨a, [], t, ?_, rfl, hpa, ?_⟩
      · rw [List.find?_cons_of_pos _ hpa]
      · intro y hy
        exact absurd hy (List.not_mem_nil y)
    · have hpaf : p a = false := by
        cases h : p a
        · rfl
        · exact absurd h hpa
      have hxt : x ∈ t := by
        rcases List.mem_cons.mp hx with rfl | hxt
        · exact absurd hpx hpa
        · exact hxt
      obtain ⟨m, l1, l2, hfind, hdec, hpm, hl1⟩ := ih ⟨x, hxt, hpx⟩
      refine ⟨m, a :: l1, l2, ?_, ?_, hpm, ?_⟩
      · rw [List.find?_cons_of_neg _ hpa]
        exact hfind
      · rw [List.cons_append, hdec]
      · intro y hy
        rcases List.mem_cons.mp hy with rfl | hy
        · exact hpaf
        · exact hl1 y hy

/-! ### Claim C4: body-size estimator -/

theorem count_max_attained (L : List ℚ) :
    ∀ (l : List ℚ), l ≠ [] → ∃ x ∈ l, ∀ y ∈ l, L.count y ≤ L.count x := by
  intro l
  induction l with
  | nil => intro h; exact absurd rfl h
  | cons a t ih =>
    intro _
    rcases eq_or_ne t [] with rfl | ht
    · refine ⟨a, List.mem_cons_self a [], ?_⟩
      intro y hy
      rcases List.mem_cons.mp hy with rfl | hy
      · exact le_refl _
      · exact absurd hy (List.not_mem_nil y)
    · obtain ⟨x, hx, hmax⟩ := ih ht
      rcases le_total (L.count x) (L.count a) with hc | hc
      · refine ⟨a, List.mem_cons_self a t, ?_⟩
        intro y hy
        rcases List.mem_cons.mp hy with rfl | hy
        · exact le_refl _
        · exact le_trans (hmax y hy) hc
      · refine ⟨x, List.mem_cons_of_mem a hx, ?_⟩
        intro y hy
        rcases List.mem_cons.mp hy with rfl | hy
        · exact hc
        · exact hmax y hy

/-- Claim C4: for every non-empty size list, `firstMode` (the embedding of
`Counter(sizes).most_common(1)[0][0]`) returns a size occurring in the
input, of maximal frequency, and among maximal-frequency sizes the one
first encountered in document order (everything strictly before its first
occurrence has strictly smaller count). -/
theorem c4_body_size_mode (l : List ℚ) (h : l ≠ []) :
    ∃ m, firstMode l = some m ∧ m ∈ l ∧ (∀ y ∈ l, l.count y ≤ l.count m) ∧
      ∃ l1 l2, l = l1 ++ m :: l2 ∧ ∀ y ∈ l1, l.count y < l.count m := by
  obtain ⟨x, hx, hmax⟩ := count_max_attained l l h
  have hpx : (l.all fun y => decide (l.count y ≤ l.count x)) = true := by
    rw [List.all_eq_true]
    intro y hy
    exact decide_eq_true (hmax y hy)
  obtain ⟨m, l1, l2, hfind, hdec, hpm, hl1⟩ :=
    find?_first_decomp (fun z => l.all fun y => decide (l.count y ≤ l.count z)) l
      ⟨x, hx, hpx⟩
  have hm : ∀ y ∈ l, l.count y ≤ l.count m := by
    intro y hy
    exact of_decide_eq_true ((List.all_eq_true.mp hpm) y hy)
  refine ⟨m, hfind, ?_, hm, l1, l2, hdec, ?_⟩
  · rw [hdec]
    exact List.mem_append_right l1 (List.mem_cons_self m l2)
  · intro y hy
    have hfalse := hl1 y hy
    have hnall : ¬ ((l.all fun z => decide (l.count z ≤ l.count y)) = true) := by
      rw [hfalse]
      simp
    rw [List.all_eq_true] at hnall
    push_neg at hnall
    obtain ⟨z, hz, hnz⟩ := hnall
    have hzy : l.count y < l.count z := by
      have hn : ¬ (l.count z ≤ l.count y) := fun hc => hnz (decide_eq_true hc)
      omega
    exact lt_of_lt_of_le hzy (hm z hz)

/-- Witness for C4 at the concrete size list `[10, 12, 10, 12, 7]`. -/
theorem c4_body_size_mode_witness :
    (([(10 : ℚ), 12, 10, 12, 7] : List ℚ) ≠ []) ∧
    (∃ m, firstMode [(10 : ℚ), 12, 10, 12, 7] = some m ∧
      m ∈ [(10 : ℚ), 12, 10, 12, 7] ∧
      (∀ y ∈ [(10 : ℚ), 12, 10, 12, 7],
        [(10 : ℚ), 12, 10, 12, 7].count y ≤ [(10 : ℚ), 12, 10, 12, 7].count m) ∧
      ∃ l1 l2, [(10 : ℚ), 12, 10, 12, 7] = l1 ++ m :: l2 ∧
        ∀ y ∈ l1, [(10 : ℚ), 12, 10, 12, 7].count y < [(10 : ℚ), 12, 10, 12, 7].count m) :=
  ⟨by decide, c4_body_size_mode [(10 : ℚ), 12, 10, 12, 7] (by decide)⟩

/-! ### Claim C5: monotonicity of the heading classifier -/

theorem sizeBonus_mono {r1 r2 : ℚ} (h : r1 ≤ r2) : sizeBonus r1 ≤ sizeBonus r2 := by
  unfold sizeBonus
  split_ifs <;> simp <;> linarith

theorem rank_det_mono (b : Bool) (sz : ℚ) {r1 r2 : ℚ} (h : r1 ≤ r2) :
    rankLevel (determine_heading_level r1 b sz) ≤
      rankLevel (determine_heading_level r2 b sz) := by
  unfold determine_heading_level
  split_ifs <;> simp [rankLevel] <;> linarith

theorem rank_det_bold (rr sz : ℚ) :
    rankLevel (determine_heading_level rr false sz) ≤
      rankLevel (determine_heading_level rr true sz) := by
  unfold determine_heading_level
  split_ifs <;> simp_all [rankLevel]

/-- Claim C5: with text and boldness fixed, a larger size ratio never
decreases the acceptance score of `is_likely_heading` (whenever a score is
computed at the smaller ratio, a score at least as large is computed at the
larger one), never decreases the rank of the level assigned by
`determine_heading_level` (H1 > H2 > H3), and boldness only ever promotes
the level. -/
theorem c5_classifier_monotone (text : String) (b : Bool) (r1 r2 sz : ℚ) (s1 : Int)
    (h12 : r1 ≤ r2) (hs : is_likely_heading_score text r1 b = some s1) :
    (∃ s2, is_likely_heading_score text r2 b = some s2 ∧ s1 ≤ s2) ∧
    rankLevel (determine_heading_level r1 b sz) ≤
      rankLevel (determine_heading_level r2 b sz) ∧
    rankLevel (determine_heading_level r2 false sz) ≤
      rankLevel (determine_heading_level r2 true sz) := by
  have hf : textFiltersReject text = false := by
    cases hc : textFiltersReject text
    · rfl
    · simp [is_likely_heading_score, hc] at hs
  have hr1 : ¬ (r1 ≤ 23 / 20) := by
    intro hc
    simp [is_likely_heading_score, hf, hc] at hs
  have hr2 : ¬ (r2 ≤ 23 / 20) := fun hc => hr1 (le_trans h12 hc)
  have hs1 : s1 = sizeBonus r1 + textScore text b := by
    simp [is_likely_heading_score, hf, hr1] at hs
    exact hs.symm
  refine ⟨⟨sizeBonus r2 + textScore text b, ?_, ?_⟩,
    rank_det_mono b sz h12, rank_det_bold r2 sz⟩
  · simp [is_likely_heading_score, hf, hr2]
  · rw [hs1]
    have := sizeBonus_mono h12
    omega

set_option maxHeartbeats 2000000 in
/-- Witness for C5 at text "Summary Results", bold, ratios 3/2 ≤ 5/2. -/
theorem c5_classifier_monotone_witness :
    ((3 : ℚ) / 2 ≤ 5 / 2) ∧
    ((∃ s2, is_likely_heading_score "Summary Results" (5 / 2) true = some s2 ∧
        (13 : Int) ≤ s2) ∧
     rankLevel (determine_heading_level (3 / 2) true 25) ≤
       rankLevel (determine_heading_level (5 / 2) true 25) ∧
     rankLevel (determine_heading_level (5 / 2) false 25) ≤
       rankLevel (determine_heading_level (5 / 2) true 25)) :=
  ⟨by with_unfolding_all decide,
   c5_classifier_monotone "Summary Results" true (3 / 2) (5 / 2) 25 13
     (by with_unfolding_all decide) (by with_unfolding_all decide)⟩

/-! ### Claim C10: repeating-element texts are never headings -/

/-- Claim C10: any text equal, case-insensitively (after stripping), to
"RFP:", "Request", "Proposal", "Business" or "Plan" is rejected by
`is_likely_heading` regardless of size ratio and boldness. -/
theorem c10_repeating_elements_rejected (text : String) (rr : ℚ) (b : Bool)
    (h : lowerStr (stripStr text) ∈
      (["rfp:", "request", "proposal", "business", "plan"] : List String)) :
    is_likely_heading text rr b = false := by
  have h12 : skipP12 (lowerChars (stripChars text.data)) = true := by
    have hd : lowerChars (stripChars text.data) = (lowerStr (stripStr text)).data := rfl
    rw [hd]
    simp only [List.mem_cons, List.not_mem_nil, or_false] at h
    rcases h with h | h | h | h | h <;> rw [h] <;> decide
  have hrej : textFiltersReject text = true := by
    simp only [textFiltersReject, h12, Bool.or_true, Bool.true_or]
  have hscore : is_likely_heading_score text rr b = none := by
    unfold is_likely_heading_score
    rw [hrej]
    exact if_pos rfl
  unfold is_likely_heading
  rw [hscore]

/-- Witness for C10 at the text "RFP:". -/
theorem c10_repeating_elements_rejected_witness :
    (lowerStr (stripStr "RFP:") ∈
      (["rfp:", "request", "proposal", "business", "plan"] : List String)) ∧
    is_likely_heading "RFP:" 5 true = false :=
  ⟨by decide, c10_repeating_elements_rejected "RFP:" 5 true (by decide)⟩

/-! ### Claim C3: title resolution priority chain -/

theorem extract_title_eq_resolve (metaTitle : String) (spans : List RawSpan) :
    (extract_title_and_outline metaTitle spans).title = resolveTitle metaTitle spans := by
  unfold extract_title_and_outline
  split <;> rfl

/-- Claim C3: title resolution is a strict priority chain: a metadata title
that is non-empty after trimming is returned trimmed, regardless of page
content; when the metadata title trims to empty and no page-1 span at the
maximal page-1 size passes `is_likely_title`, the result is exactly
"Untitled Document". -/
theorem c3_title_priority_chain (metaTitle : String) (spans : List RawSpan) :
    (stripStr metaTitle ≠ "" →
      (extract_title_and_outline metaTitle spans).title = stripStr metaTitle) ∧
    ((stripStr metaTitle = "" ∧
      ∀ s ∈ firstPageSpans spans,
        s.size = maxSizeOf (firstPageSpans spans) → is_likely_title s.text = false) →
      (extract_title_and_outline metaTitle spans).title = "Untitled Document") := by
  constructor
  · intro h
    rw [extract_title_eq_resolve]
    unfold resolveTitle
    rw [if_pos h]
  · rintro ⟨h0, hno⟩
    rw [extract_title_eq_resolve]
    unfold resolveTitle
    rw [if_neg (by simp [h0])]
    have hnone : (firstPageSpans spans).find? (fun s =>
        decide (s.size = maxSizeOf (firstPageSpans spans)) && is_likely_title s.text) =
        none := by
      rw [List.find?_eq_none]
      intro x hx hcontra
      rw [Bool.and_eq_true] at hcontra
      have hsz := of_decide_eq_true hcontra.1
      have hfalse := hno x hx hsz
      rw [hfalse] at hcontra
      exact Bool.false_ne_true hcontra.2
    show (if (firstPageSpans spans).isEmpty = true then "Untitled Document"
      else
        match (firstPageSpans spans).find? (fun s =>
            decide (s.size = maxSizeOf (firstPageSpans spans)) &&
              is_likely_title s.text) with
        | some s => if s.text = "" then "Untitled Document" else s.text
        | none => "Untitled Document") = "Untitled Document"
    by_cases hemp : (firstPageSpans spans).isEmpty = true
    · rw [if_pos hemp]
    · rw [if_neg hemp, hnone]

/-- Witness for C3: metadata " Report " wins trimmed; empty metadata with
an implausible page-1 span falls back to the sentinel. -/
theorem c3_title_priority_chain_witness :
    (extract_title_and_outline " Report " [⟨"Hello there friends", 12, 0, 1⟩]).title =
      "Report" ∧
    (extract_title_and_outline "" [⟨"abc", 12, 0, 1⟩]).title = "Untitled Document" :=
  ⟨((c3_title_priority_chain " Report " [⟨"Hello there friends", 12, 0, 1⟩]).1
      (by decide)).trans (by decide),
   (c3_title_priority_chain "" [⟨"abc", 12, 0, 1⟩]).2
      ⟨by decide, by with_unfolding_all decide⟩⟩

/-! ### Claim C2: relevance score contract -/

theorem calc_score_zero (tok : String → List String) (text persona task : String)
    (h : textWords tok text = []) :
    calculate_relevance_score tok text persona task = 0 := by
  unfold calculate_relevance_score
  rw [h]
  rfl

theorem calc_score_formula (tok : String → List String) (text persona task : String)
    (h : textWords tok text ≠ []) :
    calculate_relevance_score tok text persona task =
      min (100 * (2 * ((textWords tok text ∩ personaKeywords persona).length : ℚ) +
            3 * ((textWords tok text ∩ taskWords tok task).length : ℚ)) /
          ((textWords tok text).length : ℚ)) 100 := by
  have hlen : (textWords tok text).length ≠ 0 := by
    intro hc
    exact h (List.length_eq_zero.mp hc)
  unfold calculate_relevance_score
  rw [if_neg hlen]
  rw [List.inter_def, List.inter_def]
  simp only [List.elem_eq_mem]
  congr 1
  ring

/-- Claim C2: `calculate_relevance_score` always lies in [0, 100]; it is 0
when the text tokenizes to no words of length > 3, and otherwise equals
`min(100, 100 * (2*persona_matches + 3*task_matches) / |text_words|)` where
the matches are intersection sizes with the persona keyword set and the
task word set. -/
theorem c2_relevance_score_contract (tok : String → List String)
    (text persona task : String) :
    0 ≤ calculate_relevance_score tok text persona task ∧
    calculate_relevance_score tok text persona task ≤ 100 ∧
    (textWords tok text = [] → calculate_relevance_score tok text persona task = 0) ∧
    (textWords tok text ≠ [] →
      calculate_relevance_score tok text persona task =
        min (100 * (2 * ((textWords tok text ∩ personaKeywords persona).length : ℚ) +
              3 * ((textWords tok text ∩ taskWords tok task).length : ℚ)) /
            ((textWords tok text).length : ℚ)) 100) := by
  refine ⟨?_, ?_, calc_score_zero tok text persona task,
    calc_score_formula tok text persona task⟩
  · by_cases h : textWords tok text = []
    · rw [calc_score_zero tok text persona task h]
    · rw [calc_score_formula tok text persona task h]
      have hpos : (0 : ℚ) < ((textWords tok text).length : ℚ) := by
        have : textWords tok text ≠ [] := h
        have hl : 0 < (textWords tok text).length := List.length_pos.mpr this
        exact_mod_cast hl
      refine le_min ?_ (by norm_num)
      positivity
  · by_cases h : textWords tok text = []
    · rw [calc_score_zero tok text persona task h]
      norm_num
    · rw [calc_score_formula tok text persona task h]
      exact min_le_right _ _

/-- Witness for C2 at a concrete tokenizer and inputs, for both the empty
and non-empty text-word cases. -/
theorem c2_relevance_score_contract_witness :
    (textWords pySplit "beach trip fun" ≠ []) ∧
    calculate_relevance_score pySplit "beach trip fun" "Travel Planner" "tour around" =
      min (100 * (2 * ((textWords pySplit "beach trip fun" ∩
              personaKeywords "Travel Planner").length : ℚ) +
            3 * ((textWords pySplit "beach trip fun" ∩
              taskWords pySplit "tour around").length : ℚ)) /
          ((textWords pySplit "beach trip fun").length : ℚ)) 100 ∧
    (textWords pySplit "" = []) ∧
    calculate_relevance_score pySplit "" "Travel Planner" "tour around" = 0 :=
  ⟨by decide,
   (c2_relevance_score_contract pySplit "beach trip fun" "Travel Planner"
      "tour around").2.2.2 (by decide),
   by decide,
   (c2_relevance_score_contract pySplit "" "Travel Planner" "tour around").2.2.1
      (by decide)⟩

/-! ### Claim C1: outline dedup invariant -/

theorem cleanStep_inv (acc : List OutlineEntry × List (String × Nat)) (h : PHeading)
    (h1 : ∀ e ∈ acc.1, keyTP e ∈ acc.2) (h2 : (outlineKeys acc.1).Nodup) :
    (∀ e ∈ (cleanStep acc h).1, keyTP e ∈ (cleanStep acc h).2) ∧
      (outlineKeys (cleanStep acc h).1).Nodup := by
  unfold cleanStep
  by_cases hmem : (h.text, h.page) ∈ acc.2
  · rw [if_pos hmem]
    exact ⟨h1, h2⟩
  · rw [if_neg hmem]
    have hknotin : ∀ e ∈ acc.1, keyTP e ≠ (h.text, h.page) := by
      intro e he hk
      exact hmem (hk ▸ h1 e he)
    cases hov : findOverlap acc.1 h.page h.text with
    | none =>
      dsimp only
      refine ⟨?_, ?_⟩
      · intro e he
        rcases List.mem_append.mp he with he | he
        · exact List.mem_cons_of_mem _ (h1 e he)
        · rw [List.mem_singleton.mp he]
          exact List.mem_cons_self _ _
      · unfold outlineKeys
        rw [List.map_append, List.nodup_append]
        refine ⟨h2, List.nodup_singleton _, ?_⟩
        intro k hk1 hk2
        rw [List.mem_map] at hk1
        obtain ⟨e, he, hke⟩ := hk1
        simp only [List.map_cons, List.map_nil, List.mem_singleton] at hk2
        exact hknotin e he (by rw [hke, hk2]; rfl)
    | some e =>
      dsimp only
      by_cases hlt : e.text.length < h.text.length
      · rw [if_pos hlt]
        refine ⟨?_, ?_⟩
        · intro e' he'
          rcases List.mem_append.mp he' with he' | he'
          · exact List.mem_cons_of_mem _ (h1 e' (List.mem_of_mem_erase he'))
          · rw [List.mem_singleton.mp he']
            exact List.mem_cons_self _ _
        · unfold outlineKeys
          rw [List.map_append, List.nodup_append]
          have hsub : List.Sublist ((acc.1.erase e).map keyTP) (acc.1.map keyTP) :=
            (List.erase_sublist e acc.1).map keyTP
          refine ⟨h2.sublist hsub, List.nodup_singleton _, ?_⟩
          intro k hk1 hk2
          rw [List.mem_map] at hk1
          obtain ⟨e', he', hke⟩ := hk1
          simp only [List.map_cons, List.map_nil, List.mem_singleton] at hk2
          exact hknotin e' (List.mem_of_mem_erase he') (by rw [hke, hk2]; rfl)
      · rw [if_neg hlt]
        exact ⟨h1, h2⟩

theorem cleanFold_inv (hs : List PHeading) :
    ∀ (acc : List OutlineEntry × List (String × Nat)),
      (∀ e ∈ acc.1, keyTP e ∈ acc.2) → (outlineKeys acc.1).Nodup →
      (∀ e ∈ (hs.foldl cleanStep acc).1, keyTP e ∈ (hs.foldl cleanStep acc).2) ∧
        (outlineKeys (hs.foldl cleanStep acc).1).Nodup := by
  induction hs with
  | nil =>
    intro acc h1 h2
    exact ⟨h1, h2⟩
  | cons h t ih =>
    intro acc h1 h2
    obtain ⟨g1, g2⟩ := cleanStep_inv acc h h1 h2
    exact ih _ g1 g2

theorem merge_keys_nodup (hs : List PHeading) :
    (outlineKeys ((hs.foldl cleanStep ([], [])).1)).Nodup :=
  (cleanFold_inv hs ([], [])
    (fun e he => absurd he (List.not_mem_nil e)) List.nodup_nil).2

theorem pagesort_keys_nodup (l : List OutlineEntry) (h : (outlineKeys l).Nodup) :
    (outlineKeys (List.insertionSort pageLe l)).Nodup :=
  (((List.perm_insertionSort pageLe l).map keyTP).nodup_iff).mpr h

/-- Amended claim C1: in the final outline produced by
`extract_title_and_outline`, no two entries share an identical
`(text, page)` pair.  (The second half of the original claim — that no
entry's text is a strict substring of another same-page entry's text — is
refuted by `c1_substring_counterexample`: the merge loop removes only the
first overlapping entry before appending a longer candidate, so a previously
kept entry can remain a strict substring of the newly kept longer one.) -/
theorem c1_outline_keys_nodup (metaTitle : String) (spans : List RawSpan) :
    (outlineKeys (extract_title_and_outline metaTitle spans).outline).Nodup := by
  unfold extract_title_and_outline
  by_cases hemp : (collectSpans spans).isEmpty = true
  · rw [if_pos hemp]
    exact List.nodup_nil
  · rw [if_neg hemp]
    exact pagesort_keys_nodup _ (merge_keys_nodup _)

def c1Spans : List RawSpan :=
  [⟨"Summary Results", 25, 16, 1⟩, ⟨"Results Overview", 24, 16, 1⟩,
   ⟨"Summary Results Overview", 20, 16, 1⟩, ⟨"plain body words here", 10, 0, 1⟩,
   ⟨"more plain body words", 10, 0, 1⟩, ⟨"even more body words", 10, 0, 2⟩,
   ⟨"final body words here", 10, 0, 2⟩]

set_option maxHeartbeats 4000000 in
/-- Counterexample to claim C1 as stated: on this document the final
outline is `[("Results Overview", 1), ("Summary Results Overview", 1)]` —
the first entry's text is a strict substring of the second's on the same
page, so the claimed no-substring invariant (`c1Pred`) fails.  The longer
candidate "Summary Results Overview" removed only "Summary Results", the
first same-page overlap, and was then appended alongside
"Results Overview". -/
theorem c1_substring_counterexample :
    (extract_title_and_outline "Doc" c1Spans).outline =
      [⟨.H1, "Results Overview", 1⟩, ⟨.H1, "Summary Results Overview", 1⟩] ∧
    c1Pred (extract_title_and_outline "Doc" c1Spans).outline = false := by
  with_unfolding_all decide

/-! ### Claim C6: content refiner diversity -/

theorem selectStep_inv (acc : List String × List String) (p : String × ℚ)
    (h1 : acc.1.length ≤ 3) (h2 : List.Pairwise overlapLe acc.1)
    (h3 : ∀ s ∈ acc.1, ∀ w ∈ wordsOf s, w ∈ acc.2) :
    (selectStep acc p).1.length ≤ 3 ∧
      List.Pairwise overlapLe (selectStep acc p).1 ∧
      ∀ s ∈ (selectStep acc p).1, ∀ w ∈ wordsOf s, w ∈ (selectStep acc p).2 := by
  unfold selectStep
  by_cases hfull : 3 ≤ acc.1.length
  · rw [if_pos hfull]
    exact ⟨h1, h2, h3⟩
  · rw [if_neg hfull]
    by_cases hacc : 3 * (wordsOf p.1).length ≤
        10 * ((wordsOf p.1).filter (fun w => decide (w ∉ acc.2))).length
    · rw [if_pos hacc]
      refine ⟨?_, ?_, ?_⟩
      · rw [List.length_append]
        simp only [List.length_singleton]
        omega
      · rw [List.pairwise_append]
        refine ⟨h2, List.pairwise_singleton _ _, ?_⟩
        intro a ha b hb
        rw [List.mem_singleton] at hb
        subst hb
        unfold overlapLe
        have hsub : ∀ w, decide (w ∈ wordsOf a) = true → decide (w ∈ acc.2) = true := by
          intro w hw
          exact decide_eq_true (h3 a ha w (of_decide_eq_true hw))
        have hmono := length_filter_mono (wordsOf p.1)
          (fun w => decide (w ∈ wordsOf a)) (fun w => decide (w ∈ acc.2)) hsub
        have hpart := length_filter_partition (wordsOf p.1)
          (fun w => decide (w ∈ acc.2))
        have hneg : (wordsOf p.1).filter (fun w => !decide (w ∈ acc.2)) =
            (wordsOf p.1).filter (fun w => decide (w ∉ acc.2)) := by
          apply List.filter_congr
          intro w _
          simp [decide_not]
        rw [hneg] at hpart
        omega
      · intro s hs w hw
        rcases List.mem_append.mp hs with hs | hs
        · exact List.mem_append_left _ (h3 s hs w hw)
        · rw [List.mem_singleton.mp hs] at hw
          exact List.mem_append_right _ hw
    · rw [if_neg hacc]
      exact ⟨h1, h2, h3⟩

theorem selectFold_inv (ps : List (String × ℚ)) :
    ∀ (acc : List String × List String),
      acc.1.length ≤ 3 → List.Pairwise overlapLe acc.1 →
      (∀ s ∈ acc.1, ∀ w ∈ wordsOf s, w ∈ acc.2) →
      (ps.foldl selectStep acc).1.length ≤ 3 ∧
        List.Pairwise overlapLe (ps.foldl selectStep acc).1 := by
  induction ps with
  | nil =>
    intro acc h1 h2 _
    exact ⟨h1, h2⟩
  | cons p t ih =>
    intro acc h1 h2 h3
    obtain ⟨g1, g2, g3⟩ := selectStep_inv acc p h1 h2 h3
    exact ih _ g1 g2 g3

/-- Amended claim C6: `refine_text` accepts at most 3 sentences, and each
later accepted sentence shares at most 70% word overlap with each earlier
accepted sentence (at most 70% of the later sentence's word set was already
seen).  (The strictly-less-than-70% version claimed by the spec is refuted
by `c6_overlap_counterexample`: the acceptance test
`len(new_words) >= len(sentence_words) * 0.3` allows exactly 70% overlap.) -/
theorem c6_refiner_diversity (tok ss : String → List String)
    (text persona task : String) :
    (refineSelected tok ss text persona task).length ≤ 3 ∧
      List.Pairwise overlapLe (refineSelected tok ss text persona task) := by
  unfold refineSelected
  exact selectFold_inv _ ([], []) (by simp) List.Pairwise.nil
    (fun s hs => absurd hs (List.not_mem_nil s))

def c6Sent1 : String := "beach alpha bravo charlie delta echo foxtrot"

def c6Sent2 : String := "beach alpha bravo charlie delta echo foxtrot golf mango india"

def c6Text : String :=
  "beach alpha bravo charlie delta echo foxtrot. beach alpha bravo charlie delta echo foxtrot golf mango india."

set_option maxHeartbeats 4000000 in
/-- Counterexample to claim C6 as stated: both sentences are accepted by the
refiner although the second shares exactly 70% of its 10 distinct words with
the first, so the claimed strict <70% pairwise-overlap property (`c6Pred`)
fails on the accepted list. -/
theorem c6_overlap_counterexample :
    refineSelected pySplit (fun _ => [c6Sent1, c6Sent2]) c6Text "Travel Planner" "x" =
      [c6Sent1, c6Sent2] ∧
    c6Pred (refineSelected pySplit (fun _ => [c6Sent1, c6Sent2]) c6Text
      "Travel Planner" "x") = false := by
  with_unfolding_all decide

/-! ### Claim C7: refine_text length gates -/

/-- Amended claim C7: `refine_text` returns the empty string when the
cleaned input text has length < 20; otherwise it returns the accepted
sentences joined with single spaces when the joined result is strictly
longer than 20 characters, and the empty string when the joined result has
at most 20 characters.  (The spec's version — empty only when the joined
result is < 20 characters — is refuted by `c7_boundary_counterexample`: a
joined result of exactly 20 characters also yields the empty string.) -/
theorem c7_refine_text_gates (tok ss : String → List String)
    (text persona task : String) :
    ((cleanText text).length < 20 → refine_text tok ss text persona task = "") ∧
    (¬ (cleanText text).length < 20 →
      refine_text tok ss text persona task =
        (if 20 < (String.intercalate " "
              (refineSelected tok ss text persona task)).length
         then String.intercalate " " (refineSelected tok ss text persona task)
         else "")) := by
  constructor
  · intro h
    unfold refine_text
    rw [if_pos h]
  · intro h
    unfold refine_text
    rw [if_neg h]

/-- Witness for C7: a short input rejected by the first gate, and an input
whose joined selection has exactly 20 characters, rejected by the second. -/
theorem c7_refine_text_gates_witness :
    refine_text pySplit (fun x => [x]) "hi" "Travel Planner" "x" = "" ∧
    refine_text pySplit (fun x => [x]) "aa bb cc dd ee beach" "Travel Planner" "x" =
      "" := by
  constructor
  · exact (c7_refine_text_gates pySplit (fun x => [x]) "hi" "Travel Planner" "x").1
      (by decide)
  · have h := (c7_refine_text_gates pySplit (fun x => [x]) "aa bb cc dd ee beach"
      "Travel Planner" "x").2 (by decide)
    rw [h]
    with_unfolding_all decide

set_option maxHeartbeats 4000000 in
/-- Counterexample to claim C7 as stated: the cleaned input has length 20
(not < 20) and the joined accepted sentences are the full 20-character
string, yet `refine_text` returns the empty string, where the claim
requires the joined string itself for every joined result not < 20. -/
theorem c7_boundary_counterexample :
    refine_text pySplit (fun x => [x]) "aa bb cc dd ee beach" "Travel Planner" "x" =
      "" ∧
    String.intercalate " " (refineSelected pySplit (fun x => [x])
      "aa bb cc dd ee beach" "Travel Planner" "x") = "aa bb cc dd ee beach" ∧
    ¬ (cleanText "aa bb cc dd ee beach").length < 20 := by
  with_unfolding_all decide

/-! ### Claim C8: whole-page scoring in extract_relevant_content -/

theorem sectionFold_ok (tok : String → List String) (persona task : String)
    (pages : List (Nat × String)) (pnum : Nat) (ptext : String)
    (hpt : (pnum, ptext) ∈ pages) :
    ∀ (secs : List (String × Nat)) (acc : List ScoredSection × List String),
      (∀ s ∈ acc.1, s.score = calculate_relevance_score tok s.text persona task ∧
        0 < s.score ∧ (s.page, s.text) ∈ pages) →
      ∀ s ∈ (secs.foldl (sectionStep tok persona task pnum ptext) acc).1,
        s.score = calculate_relevance_score tok s.text persona task ∧
          0 < s.score ∧ (s.page, s.text) ∈ pages := by
  intro secs
  induction secs with
  | nil =>
    intro acc hacc
    exact hacc
  | cons st t ih =>
    intro acc hacc
    apply ih
    intro s hs
    unfold sectionStep at hs
    by_cases hrel : 0 < calculate_relevance_score tok ptext persona task
    · rw [if_pos hrel] at hs
      by_cases hk : normTitle st.1 ∈ acc.2
      · rw [if_pos hk] at hs
        exact hacc s hs
      · rw [if_neg hk] at hs
        rcases List.mem_append.mp hs with hs | hs
        · exact hacc s hs
        · rw [List.mem_singleton.mp hs]
          exact ⟨rfl, hrel, hpt⟩
    · rw [if_neg hrel] at hs
      exact hacc s hs

theorem pageFold_ok (tok : String → List String) (persona task : String)
    (pages : List (Nat × String)) :
    ∀ (l : List (Nat × String)), (∀ pt ∈ l, pt ∈ pages) →
    ∀ (acc : List ScoredSection × List String),
      (∀ s ∈ acc.1, s.score = calculate_relevance_score tok s.text persona task ∧
        0 < s.score ∧ (s.page, s.text) ∈ pages) →
      ∀ s ∈ (l.foldl (pageStep tok persona task) acc).1,
        s.score = calculate_relevance_score tok s.text persona task ∧
          0 < s.score ∧ (s.page, s.text) ∈ pages := by
  intro l
  induction l with
  | nil =>
    intro _ acc hacc
    exact hacc
  | cons pt t ih =>
    intro hsub acc hacc
    apply ih (fun q hq => hsub q (List.mem_cons_of_mem pt hq))
    intro s hs
    unfold pageStep at hs
    exact sectionFold_ok tok persona task pages pt.1 pt.2
      (hsub pt (List.mem_cons_self pt t)) _ acc hacc s hs

theorem pool_sections_ok (tok : String → List String) (pages : List (Nat × String))
    (persona task : String) :
    ∀ s ∈ extractAllSections tok pages persona task,
      s.score = calculate_relevance_score tok s.text persona task ∧
        0 < s.score ∧ (s.page, s.text) ∈ pages := by
  intro s hs
  unfold extractAllSections at hs
  exact pageFold_ok tok persona task pages pages (fun _ hq => hq) ([], [])
    (fun x hx => absurd hx (List.not_mem_nil x)) s hs

/-- Claim C8: every section emitted by `extract_relevant_content` (both in
the `all_sections` pool and among the returned top sections) carries the
relevance score of the entire page text it came from — its `text` field is
that whole page text and its score is the score of that text — and its
score is strictly positive, so a page whose full text scores 0 contributes
no sections at all. -/
theorem c8_page_level_scoring (tok ss : String → List String)
    (pages : List (Nat × String)) (persona task : String) (sec : ScoredSection)
    (h : sec ∈ extractAllSections tok pages persona task ∨
      sec ∈ (extract_relevant_content tok ss pages persona task).1) :
    sec.score = calculate_relevance_score tok sec.text persona task ∧
      0 < sec.score ∧ (sec.page, sec.text) ∈ pages := by
  rcases h with h | h
  · exact pool_sections_ok tok pages persona task sec h
  · unfold extract_relevant_content topSections at h
    have h1 : sec ∈ List.insertionSort scoreDescLe
        (extractAllSections tok pages persona task) :=
      List.take_subset 5 _ h
    have h2 : sec ∈ extractAllSections tok pages persona task :=
      (List.perm_insertionSort scoreDescLe _).mem_iff.mp h1
    exact pool_sections_ok tok pages persona task sec h2

def c8Sec : ScoredSection := ⟨"Main Content", 1, 100, "beach trip now"⟩

set_option maxHeartbeats 2000000 in
/-- Witness for C8 at a one-page document. -/
theorem c8_page_level_scoring_witness :
    (c8Sec ∈ extractAllSections pySplit [(1, "beach trip now")] "Travel Planner"
        "tour" ∨
      c8Sec ∈ (extract_relevant_content pySplit (fun x => [x])
        [(1, "beach trip now")] "Travel Planner" "tour").1) ∧
    (c8Sec.score = calculate_relevance_score pySplit c8Sec.text "Travel Planner"
        "tour" ∧
      0 < c8Sec.score ∧ (c8Sec.page, c8Sec.text) ∈ [(1, "beach trip now")]) :=
  ⟨Or.inl (by with_unfolding_all decide),
   c8_page_level_scoring pySplit (fun x => [x]) [(1, "beach trip now")]
     "Travel Planner" "tour" c8Sec (Or.inl (by with_unfolding_all decide))⟩

/-! ### Claim C9: one section per normalized title -/

theorem sectionFold_nodup (tok : String → List String) (persona task : String)
    (pnum : Nat) (ptext : String) :
    ∀ (secs : List (String × Nat)) (acc : List ScoredSection × List String),
      ((acc.1.map (fun s => normTitle s.title)).Nodup ∧
        ∀ s ∈ acc.1, normTitle s.title ∈ acc.2) →
      (((secs.foldl (sectionStep tok persona task pnum ptext) acc).1.map
          (fun s => normTitle s.title)).Nodup ∧
        ∀ s ∈ (secs.foldl (sectionStep tok persona task pnum ptext) acc).1,
          normTitle s.title ∈
            (secs.foldl (sectionStep tok persona task pnum ptext) acc).2) := by
  intro secs
  induction secs with
  | nil =>
    intro acc hacc
    exact hacc
  | cons st t ih =>
    intro acc hacc
    apply ih
    obtain ⟨hnd, hseen⟩ := hacc
    unfold sectionStep
    by_cases hrel : 0 < calculate_relevance_score tok ptext persona task
    · rw [if_pos hrel]
      by_cases hk : normTitle st.1 ∈ acc.2
      · rw [if_pos hk]
        exact ⟨hnd, hseen⟩
      · rw [if_neg hk]
        constructor
        · rw [List.map_append, List.nodup_append]
          refine ⟨hnd, List.nodup_singleton _, ?_⟩
          intro k hk1 hk2
          rw [List.mem_map] at hk1
          obtain ⟨s, hsmem, hks⟩ := hk1
          simp only [List.map_cons, List.map_nil, List.mem_singleton] at hk2
          exact hk (by rw [← hk2, ← hks]; exact hseen s hsmem)
        · intro s hs
          rcases List.mem_append.mp hs with hs | hs
          · exact List.mem_cons_of_mem _ (hseen s hs)
          · rw [List.mem_singleton.mp hs]
            exact List.mem_cons_self _ _
    · rw [if_neg hrel]
      exact ⟨hnd, hseen⟩

theorem pageFold_nodup (tok : String → List String) (persona task : String) :
    ∀ (l : List (Nat × String)) (acc : List ScoredSection × List String),
      ((acc.1.map (fun s => normTitle s.title)).Nodup ∧
        ∀ s ∈ acc.1, normTitle s.title ∈ acc.2) →
      (((l.foldl (pageStep tok persona task) acc).1.map
          (fun s => normTitle s.title)).Nodup ∧
        ∀ s ∈ (l.foldl (pageStep tok persona task) acc).1,
          normTitle s.title ∈ (l.foldl (pageStep tok persona task) acc).2) := by
  intro l
  induction l with
  | nil =>
    intro acc hacc
    exact hacc
  | cons pt t ih =>
    intro acc hacc
    apply ih
    unfold pageStep
    exact sectionFold_nodup tok persona task pt.1 pt.2 _ acc hacc

/-- Claim C9: within one call of `extract_relevant_content`, at most one
section is kept per distinct normalized title (stripped and lowercased),
across every page of the document — the emitted pool and the returned top
sections both have pairwise-distinct normalized titles. -/
theorem c9_title_dedup (tok ss : String → List String) (pages : List (Nat × String))
    (persona task : String) :
    ((extractAllSections tok pages persona task).map
      (fun s => normTitle s.title)).Nodup ∧
    (((extract_relevant_content tok ss pages persona task).1).map
      (fun s => normTitle s.title)).Nodup := by
  have hpool : ((extractAllSections tok pages persona task).map
      (fun s => normTitle s.title)).Nodup := by
    unfold extractAllSections
    exact (pageFold_nodup tok persona task pages ([], [])
      ⟨List.nodup_nil, fun s hs => absurd hs (List.not_mem_nil s)⟩).1
  refine ⟨hpool, ?_⟩
  unfold extract_relevant_content topSections
  rw [List.map_take]
  apply List.Nodup.sublist (List.take_sublist 5 _)
  exact (((List.perm_insertionSort scoreDescLe _).map
    (fun s => normTitle s.title)).nodup_iff).mpr hpool
